import Mathlib

/-!
Shallow embedding of the NemisisFinder matching engine (rust-matcher).

Sources embedded:
- `src/rust-matcher/src/lib.rs` : `User`, `Match`, `User::new`.
- `src/rust-matcher/src/scoring.rs` : the four scoring strategies.
- `src/rust-matcher/src/matching.rs` : `GreedyMatcher::find_matches`,
  `greedy_select`; `calculate_all_pairs` is a `todo!()` in the source and is
  modelled from the spec (see its doc comment).

Modelling conventions:
- Rust `i32` responses are embedded as `ℤ` (all values involved are tiny, no
  overflow is reachable).
- Rust `f64` scores are embedded as exact rationals `ℚ`; the Euclidean scorer's
  `sqrt` is embedded with `Real.sqrt` over `ℝ`.
- A Rust panic (failed `assert_eq!`) is embedded as an `Option`-valued function
  returning `none`; `Result<T, String>` is embedded as `Except String T`.
- The trait object / generic parameter `S : ScoringStrategy` consumed by the
  matcher is embedded as a function `User → User → ℚ`.
-/

/-- `User` from lib.rs: an identifier plus questionnaire responses. -/
structure User where
  id : String
  responses : List ℤ
deriving DecidableEq

/-- `User::new` from lib.rs: validates that all responses lie in `[1,7]`. -/
def User.new (id : String) (responses : List ℤ) : Except String User :=
  if responses.any (fun r => r < 1 || 7 < r) then
    Except.error "All responses must be between 1 and 7"
  else
    Except.ok { id := id, responses := responses }

/-- `Match` from lib.rs: two user ids plus the opposition score. -/
structure Match where
  user1_id : String
  user2_id : String
  score : ℚ
deriving DecidableEq

/-- `Match::new` from lib.rs. -/
def Match.new (user1_id user2_id : String) (score : ℚ) : Match :=
  { user1_id := user1_id, user2_id := user2_id, score := score }

namespace SimpleDifferenceScorer

/-- `SimpleDifferenceScorer::calculate_score` from scoring.rs: asserts equal
response lengths (panic embedded as `none`), then sums absolute differences
(an `i32` sum cast to `f64`, embedded as a `ℤ` sum cast to `ℚ`). -/
def calculate_score (user1 user2 : User) : Option ℚ :=
  if user1.responses.length = user2.responses.length then
    some (((List.zipWith (fun r1 r2 => |r1 - r2|) user1.responses user2.responses).sum : ℤ) : ℚ)
  else
    none

end SimpleDifferenceScorer

namespace EuclideanDistanceScorer

/-- `EuclideanDistanceScorer::calculate_score` from scoring.rs: asserts equal
lengths, sums squared differences in `i32`, then takes the square root. -/
noncomputable def calculate_score (user1 user2 : User) : Option ℝ :=
  if user1.responses.length = user2.responses.length then
    some (Real.sqrt (((List.zipWith (fun r1 r2 => (r1 - r2) * (r1 - r2))
      user1.responses user2.responses).sum : ℤ) : ℝ))
  else
    none

end EuclideanDistanceScorer

/-- `WeightedScorer` from scoring.rs: one weight per question. -/
structure WeightedScorer where
  weights : List ℚ
deriving DecidableEq

namespace WeightedScorer

/-- `WeightedScorer::new` from scoring.rs: rejects empty or non-positive
weight vectors. -/
def new (weights : List ℚ) : Except String WeightedScorer :=
  if weights.isEmpty then
    Except.error "Weights vector cannot be empty"
  else if weights.any (fun w => w ≤ 0) then
    Except.error "All weights must be positive"
  else
    Except.ok { weights := weights }

/-- `WeightedScorer::equal_weights` from scoring.rs: builds the scorer
directly (no validation), with `num_questions` copies of weight `1.0`. -/
def equal_weights (num_questions : ℕ) : WeightedScorer :=
  { weights := List.replicate num_questions 1 }

/-- `WeightedScorer::calculate_score` from scoring.rs: asserts that both users
have equally many responses and that this count equals the number of weights
(either failed assertion embedded as `none`), then sums
`|r1 - r2| as f64 * weight`. -/
def calculate_score (s : WeightedScorer) (user1 user2 : User) : Option ℚ :=
  if user1.responses.length = user2.responses.length ∧
      user1.responses.length = s.weights.length then
    some ((List.zipWith (fun (d : ℤ) (w : ℚ) => (d : ℚ) * w)
      (List.zipWith (fun r1 r2 => |r1 - r2|) user1.responses user2.responses)
      s.weights).sum)
  else
    none

end WeightedScorer

/-- `PolarizationScorer` from scoring.rs: conviction multipliers. -/
structure PolarizationScorer where
  extreme_multiplier : ℚ
  lean_multiplier : ℚ
  moderate_multiplier : ℚ
deriving DecidableEq

namespace PolarizationScorer

/-- `PolarizationScorer::new` from scoring.rs. -/
def new (extreme_multiplier lean_multiplier moderate_multiplier : ℚ) :
    PolarizationScorer :=
  { extreme_multiplier := extreme_multiplier,
    lean_multiplier := lean_multiplier,
    moderate_multiplier := moderate_multiplier }

/-- `PolarizationScorer::default` from scoring.rs: multipliers 1.5 / 1.2 / 1.0. -/
def default : PolarizationScorer :=
  { extreme_multiplier := 3/2, lean_multiplier := 6/5, moderate_multiplier := 1 }

/-- `PolarizationScorer::polarization_weight` from scoring.rs: the Rust
`match` on `1 | 7`, `2 | 6`, `3..=5`, with fallback `1.0`. -/
def polarization_weight (s : PolarizationScorer) (answer : ℤ) : ℚ :=
  if answer = 1 ∨ answer = 7 then s.extreme_multiplier
  else if answer = 2 ∨ answer = 6 then s.lean_multiplier
  else if 3 ≤ answer ∧ answer ≤ 5 then s.moderate_multiplier
  else 1

/-- `PolarizationScorer::calculate_score` from scoring.rs: asserts equal
lengths, then sums `diff * weight(r1) * weight(r2)` per question. -/
def calculate_score (s : PolarizationScorer) (user1 user2 : User) : Option ℚ :=
  if user1.responses.length = user2.responses.length then
    some ((List.zipWith
      (fun r1 r2 : ℤ =>
        ((|r1 - r2| : ℤ) : ℚ) * s.polarization_weight r1 * s.polarization_weight r2)
      user1.responses user2.responses).sum)
  else
    none

end PolarizationScorer

namespace GreedyMatcher

/-- Rust `&users[i]`: claims using this only ever evaluate it in bounds, where
it is `users.get ⟨i, h⟩`; out of bounds we return a default user. -/
def userAt (users : List User) (i : ℕ) : User :=
  (users.get? i).getD { id := "", responses := [] }

/-- Modelled from the spec: `GreedyMatcher::calculate_all_pairs` is a
`todo!()` in matching.rs; the spec (§4.2 step 2) and the function's own doc
comment prescribe one `(i, j, score)` triple for every pair of indices with
`i < j`, in nested-loop order (`i` ascending, then `j` ascending), the score
coming from the bound strategy on `&users[i]`, `&users[j]`. -/
def calculate_all_pairs (scorer : User → User → ℚ) (users : List User) :
    List (ℕ × ℕ × ℚ) :=
  (List.range users.length).flatMap fun i =>
    ((List.range users.length).filter (fun j => i < j)).map fun j =>
      (i, j, scorer (userAt users i) (userAt users j))

/-- The comparator from `find_matches` step 2 in matching.rs:
`b.2.partial_cmp(&a.2)` sorts pairs by score, highest first; on `ℚ` the
partial comparison is total, and `unwrap_or(Equal)` is never exercised. -/
def pairLe (a b : ℕ × ℕ × ℚ) : Bool :=
  b.2.2 ≤ a.2.2

/-- The loop body of `GreedyMatcher::greedy_select` from matching.rs:
walk the sorted candidates, committing a pair iff neither id is in the
matched set (the `HashSet<String>` is embedded as a `List String` used only
through membership). -/
def greedy_select_go (users : List User) :
    List (ℕ × ℕ × ℚ) → List String → List Match
  | [], _ => []
  | (i, j, score) :: rest, matched =>
    let user_i_id := (userAt users i).id
    let user_j_id := (userAt users j).id
    if user_i_id ∉ matched ∧ user_j_id ∉ matched then
      Match.new user_i_id user_j_id score ::
        greedy_select_go users rest (user_j_id :: user_i_id :: matched)
    else
      greedy_select_go users rest matched

/-- `GreedyMatcher::greedy_select` from matching.rs: starts with an empty
matched set. -/
def greedy_select (users : List User) (pairs : List (ℕ × ℕ × ℚ)) : List Match :=
  greedy_select_go users pairs []

/-- `GreedyMatcher::find_matches` from matching.rs: fewer than 2 users yields
`[]`; otherwise score all pairs, stable-sort descending by score, and greedily
select. Rust's `sort_by` is a stable sort, embedded as `List.mergeSort`. -/
def find_matches (scorer : User → User → ℚ) (users : List User) : List Match :=
  if users.length < 2 then
    []
  else
    greedy_select users ((calculate_all_pairs scorer users).mergeSort pairLe)

/-- The multiset of identities named by a list of matches. -/
def matchIds (ms : List Match) : List String :=
  ms.flatMap fun m => [m.user1_id, m.user2_id]

/-- An identity occurs in a match. -/
def memMatch (s : String) (m : Match) : Prop :=
  s = m.user1_id ∨ s = m.user2_id

end GreedyMatcher

/-! ### Helper lemmas for the scoring strategies -/

/-- `polarization_weight` is the moderate multiplier on answers in `[3,5]`. -/
theorem PolarizationScorer.polarization_weight_moderate (s : PolarizationScorer)
    {r : ℤ} (h3 : 3 ≤ r) (h5 : r ≤ 5) :
    s.polarization_weight r = s.moderate_multiplier := by
  unfold polarization_weight
  rw [if_neg (by omega), if_neg (by omega), if_pos ⟨h3, h5⟩]

/-- Zipping a list of integer differences with all-one weights and summing in
`ℚ` is the cast of the integer sum. -/
theorem sum_zipWith_replicate_one :
    ∀ (l : List ℤ) (n : ℕ), l.length ≤ n →
      (List.zipWith (fun (d : ℤ) (w : ℚ) => (d : ℚ) * w) l (List.replicate n 1)).sum
        = ((l.sum : ℤ) : ℚ)
  | [], _, _ => by simp
  | d :: t, n + 1, h => by
    have ih := sum_zipWith_replicate_one t n (by simpa using h)
    simp only [List.replicate_succ, List.zipWith_cons_cons, List.sum_cons, ih]
    push_cast
    ring

/-- Polarization with all-moderate answers and moderate multiplier `1`
degenerates to the plain absolute-difference sum. -/
theorem polar_sum_moderate (s : PolarizationScorer) (hm : s.moderate_multiplier = 1) :
    ∀ (l1 l2 : List ℤ),
      (∀ r ∈ l1, 3 ≤ r ∧ r ≤ 5) → (∀ r ∈ l2, 3 ≤ r ∧ r ≤ 5) →
      (List.zipWith
        (fun r1 r2 : ℤ =>
          ((|r1 - r2| : ℤ) : ℚ) * s.polarization_weight r1 * s.polarization_weight r2)
        l1 l2).sum
        = (((List.zipWith (fun r1 r2 => |r1 - r2|) l1 l2).sum : ℤ) : ℚ)
  | [], _, _, _ => by simp
  | _ :: _, [], _, _ => by simp
  | a :: t1, b :: t2, h1, h2 => by
    have ih := polar_sum_moderate s hm t1 t2
      (fun r hr => h1 r (List.mem_cons_of_mem _ hr))
      (fun r hr => h2 r (List.mem_cons_of_mem _ hr))
    have ha := h1 a (List.mem_cons_self _ _)
    have hb := h2 b (List.mem_cons_self _ _)
    simp only [List.zipWith_cons_cons, List.sum_cons, ih,
      s.polarization_weight_moderate ha.1 ha.2,
      s.polarization_weight_moderate hb.1 hb.2, hm]
    push_cast
    ring

/-! ### Claims C3, C4, C5 (scoring strategies) -/

/-- C3: for all valid participants `a` and `b` with equal-length response
vectors, each of the four scoring strategies (simple difference, Euclidean,
weighted, polarization) gives `calculate_score a b = calculate_score b a`. -/
theorem C3_score_symmetric (u1 u2 : User)
    (hv1 : ∀ r ∈ u1.responses, 1 ≤ r ∧ r ≤ 7)
    (hv2 : ∀ r ∈ u2.responses, 1 ≤ r ∧ r ≤ 7)
    (hlen : u1.responses.length = u2.responses.length) :
    SimpleDifferenceScorer.calculate_score u1 u2
      = SimpleDifferenceScorer.calculate_score u2 u1 ∧
    EuclideanDistanceScorer.calculate_score u1 u2
      = EuclideanDistanceScorer.calculate_score u2 u1 ∧
    (∀ w : WeightedScorer,
      w.calculate_score u1 u2 = w.calculate_score u2 u1) ∧
    (∀ p : PolarizationScorer,
      p.calculate_score u1 u2 = p.calculate_score u2 u1) := by
  refine ⟨?_, ?_, ?_, ?_⟩
  · unfold SimpleDifferenceScorer.calculate_score
    rw [if_pos hlen, if_pos hlen.symm,
      List.zipWith_comm_of_comm _ (fun x y => abs_sub_comm x y)]
  · unfold EuclideanDistanceScorer.calculate_score
    rw [if_pos hlen, if_pos hlen.symm,
      List.zipWith_comm_of_comm _ (fun x y : ℤ => by ring)]
  · intro w
    unfold WeightedScorer.calculate_score
    rw [List.zipWith_comm_of_comm _ (fun x y => abs_sub_comm x y)]
    by_cases h : u2.responses.length = w.weights.length
    · rw [if_pos ⟨hlen, hlen.trans h⟩, if_pos ⟨hlen.symm, h⟩]
    · rw [if_neg (fun hc => h (hlen.symm.trans hc.2)), if_neg (fun hc => h hc.2)]
  · intro p
    unfold PolarizationScorer.calculate_score
    rw [if_pos hlen, if_pos hlen.symm,
      List.zipWith_comm_of_comm _ (fun x y : ℤ => by rw [abs_sub_comm]; ring)]

/-- Witness for C3 on concrete valid participants. -/
theorem C3_score_symmetric_witness :
    SimpleDifferenceScorer.calculate_score ⟨"a", [2, 4, 6]⟩ ⟨"b", [5, 1, 7]⟩
      = SimpleDifferenceScorer.calculate_score ⟨"b", [5, 1, 7]⟩ ⟨"a", [2, 4, 6]⟩ ∧
    EuclideanDistanceScorer.calculate_score ⟨"a", [2, 4, 6]⟩ ⟨"b", [5, 1, 7]⟩
      = EuclideanDistanceScorer.calculate_score ⟨"b", [5, 1, 7]⟩ ⟨"a", [2, 4, 6]⟩ ∧
    (∀ w : WeightedScorer,
      w.calculate_score ⟨"a", [2, 4, 6]⟩ ⟨"b", [5, 1, 7]⟩
        = w.calculate_score ⟨"b", [5, 1, 7]⟩ ⟨"a", [2, 4, 6]⟩) ∧
    (∀ p : PolarizationScorer,
      p.calculate_score ⟨"a", [2, 4, 6]⟩ ⟨"b", [5, 1, 7]⟩
        = p.calculate_score ⟨"b", [5, 1, 7]⟩ ⟨"a", [2, 4, 6]⟩) :=
  C3_score_symmetric ⟨"a", [2, 4, 6]⟩ ⟨"b", [5, 1, 7]⟩
    (by decide) (by decide) (by decide)

/-- C4: on any two valid participants whose response vectors both have length
`n`, `WeightedScorer::equal_weights n` computes the same score as
`SimpleDifferenceScorer`. -/
theorem C4_equal_weights_eq_simple (u1 u2 : User) (n : ℕ)
    (hv1 : ∀ r ∈ u1.responses, 1 ≤ r ∧ r ≤ 7)
    (hv2 : ∀ r ∈ u2.responses, 1 ≤ r ∧ r ≤ 7)
    (h1 : u1.responses.length = n) (h2 : u2.responses.length = n) :
    (WeightedScorer.equal_weights n).calculate_score u1 u2
      = SimpleDifferenceScorer.calculate_score u1 u2 := by
  have hlen : u1.responses.length = u2.responses.length := h1.trans h2.symm
  unfold WeightedScorer.calculate_score SimpleDifferenceScorer.calculate_score
    WeightedScorer.equal_weights
  rw [if_pos ⟨hlen, by simpa using h1⟩, if_pos hlen]
  rw [sum_zipWith_replicate_one _ n (by simp [h1, h2])]

/-- Witness for C4 on concrete length-3 participants. -/
theorem C4_equal_weights_eq_simple_witness :
    (WeightedScorer.equal_weights 3).calculate_score ⟨"a", [1, 3, 5]⟩ ⟨"b", [4, 6, 2]⟩
      = SimpleDifferenceScorer.calculate_score ⟨"a", [1, 3, 5]⟩ ⟨"b", [4, 6, 2]⟩ :=
  C4_equal_weights_eq_simple ⟨"a", [1, 3, 5]⟩ ⟨"b", [4, 6, 2]⟩ 3
    (by decide) (by decide) (by decide) (by decide)

/-- C5: with default multipliers the polarization score on `[1]` vs `[7]` is
exactly `13.5`, on `[3]` vs `[5]` exactly `2.0`, and whenever every answer of
both participants lies in `[3,5]` it equals the simple-difference score. -/
theorem C5_polarization_values :
    (∀ u1 u2 : User, u1.responses = [1] → u2.responses = [7] →
      PolarizationScorer.default.calculate_score u1 u2 = some (27 / 2)) ∧
    (∀ u1 u2 : User, u1.responses = [3] → u2.responses = [5] →
      PolarizationScorer.default.calculate_score u1 u2 = some 2) ∧
    (∀ u1 u2 : User, u1.responses.length = u2.responses.length →
      (∀ r ∈ u1.responses, 3 ≤ r ∧ r ≤ 5) → (∀ r ∈ u2.responses, 3 ≤ r ∧ r ≤ 5) →
      PolarizationScorer.default.calculate_score u1 u2
        = SimpleDifferenceScorer.calculate_score u1 u2) := by
  refine ⟨?_, ?_, ?_⟩
  · intro u1 u2 h1 h2
    simp [PolarizationScorer.calculate_score, PolarizationScorer.default,
      PolarizationScorer.polarization_weight, h1, h2]
    norm_num
  · intro u1 u2 h1 h2
    simp [PolarizationScorer.calculate_score, PolarizationScorer.default,
      PolarizationScorer.polarization_weight, h1, h2]
    norm_num
  · intro u1 u2 hlen hm1 hm2
    unfold PolarizationScorer.calculate_score SimpleDifferenceScorer.calculate_score
    rw [if_pos hlen, if_pos hlen,
      polar_sum_moderate PolarizationScorer.default rfl _ _ hm1 hm2]

/-- Witness for C5 at the documented inputs. -/
theorem C5_polarization_values_witness :
    PolarizationScorer.default.calculate_score ⟨"a", [1]⟩ ⟨"b", [7]⟩ = some (27 / 2) ∧
    PolarizationScorer.default.calculate_score ⟨"c", [3]⟩ ⟨"d", [5]⟩ = some 2 ∧
    PolarizationScorer.default.calculate_score ⟨"e", [3, 4]⟩ ⟨"f", [5, 3]⟩
      = SimpleDifferenceScorer.calculate_score ⟨"e", [3, 4]⟩ ⟨"f", [5, 3]⟩ :=
  ⟨C5_polarization_values.1 ⟨"a", [1]⟩ ⟨"b", [7]⟩ rfl rfl,
   C5_polarization_values.2.1 ⟨"c", [3]⟩ ⟨"d", [5]⟩ rfl rfl,
   C5_polarization_values.2.2 ⟨"e", [3, 4]⟩ ⟨"f", [5, 3]⟩ (by decide)
     (by decide) (by decide)⟩

/-! ### Claims C6, C7, C8, C9 (edge cases, validation, contract violations) -/

/-- C6: `find_matches` on fewer than 2 participants returns `[]` without
error, for any bound scoring strategy. -/
theorem C6_find_matches_small (scorer : User → User → ℚ) (users : List User)
    (h : users.length < 2) :
    GreedyMatcher.find_matches scorer users = [] := by
  simp [GreedyMatcher.find_matches, h]

/-- Witness for C6: empty and singleton inputs. -/
theorem C6_find_matches_small_witness :
    GreedyMatcher.find_matches (fun _ _ => 0) [] = [] ∧
    GreedyMatcher.find_matches (fun _ _ => 0) [⟨"a", [1]⟩] = [] :=
  ⟨C6_find_matches_small (fun _ _ => 0) [] (by decide),
   C6_find_matches_small (fun _ _ => 0) [⟨"a", [1]⟩] (by decide)⟩

/-- C7: `User::new` errors exactly when some response is outside `[1,7]`; on
all-in-range responses it succeeds with id and responses stored unchanged. -/
theorem C7_user_new_validation (id : String) (rs : List ℤ) :
    (User.new id rs = Except.error "All responses must be between 1 and 7"
      ↔ ∃ r ∈ rs, r < 1 ∨ 7 < r) ∧
    ((∀ r ∈ rs, 1 ≤ r ∧ r ≤ 7) →
      User.new id rs = Except.ok { id := id, responses := rs }) := by
  have hiff : (rs.any (fun r => r < 1 || 7 < r) = true) ↔ ∃ r ∈ rs, r < 1 ∨ 7 < r := by
    simp [List.any_eq_true]
  constructor
  · constructor
    · intro h
      by_contra hc
      rw [User.new, if_neg (fun hb => hc (hiff.mp hb))] at h
      exact Except.noConfusion h
    · intro hex
      rw [User.new, if_pos (hiff.mpr hex)]
  · intro h
    rw [User.new, if_neg]
    intro hb
    obtain ⟨r, hr, hout⟩ := hiff.mp hb
    have := h r hr
    omega

/-- Witness for C7: 0 and 8 are rejected, boundary values 1 and 7 accepted. -/
theorem C7_user_new_validation_witness :
    User.new "x" [0, 2] = Except.error "All responses must be between 1 and 7" ∧
    User.new "x" [2, 8] = Except.error "All responses must be between 1 and 7" ∧
    User.new "x" [1, 7] = Except.ok { id := "x", responses := [1, 7] } :=
  ⟨(C7_user_new_validation "x" [0, 2]).1.mpr ⟨0, by decide, by decide⟩,
   (C7_user_new_validation "x" [2, 8]).1.mpr ⟨8, by decide, by decide⟩,
   (C7_user_new_validation "x" [1, 7]).2 (by decide)⟩

/-- C8: every scoring strategy treats mismatched response-vector lengths as a
fatal contract violation (embedded as `none`, the panic image); the weighted
scorer also does so when the response length differs from the weight length. -/
theorem C8_length_mismatch_panics :
    (∀ u1 u2 : User, u1.responses.length ≠ u2.responses.length →
      SimpleDifferenceScorer.calculate_score u1 u2 = none ∧
      EuclideanDistanceScorer.calculate_score u1 u2 = none ∧
      (∀ w : WeightedScorer, w.calculate_score u1 u2 = none) ∧
      (∀ p : PolarizationScorer, p.calculate_score u1 u2 = none)) ∧
    (∀ (w : WeightedScorer) (u1 u2 : User),
      u1.responses.length ≠ w.weights.length →
      w.calculate_score u1 u2 = none) := by
  constructor
  · intro u1 u2 h
    refine ⟨?_, ?_, ?_, ?_⟩
    · rw [SimpleDifferenceScorer.calculate_score, if_neg h]
    · rw [EuclideanDistanceScorer.calculate_score, if_neg h]
    · intro w
      rw [WeightedScorer.calculate_score, if_neg (fun hc => h hc.1)]
    · intro p
      rw [PolarizationScorer.calculate_score, if_neg h]
  · intro w u1 u2 h
    rw [WeightedScorer.calculate_score, if_neg (fun hc => h hc.2)]

/-- Witness for C8 at concrete mismatched inputs. -/
theorem C8_length_mismatch_panics_witness :
    SimpleDifferenceScorer.calculate_score ⟨"a", [1]⟩ ⟨"b", [1, 2]⟩ = none ∧
    EuclideanDistanceScorer.calculate_score ⟨"a", [1]⟩ ⟨"b", [1, 2]⟩ = none ∧
    (WeightedScorer.equal_weights 1).calculate_score ⟨"a", [1]⟩ ⟨"b", [1, 2]⟩ = none ∧
    PolarizationScorer.default.calculate_score ⟨"a", [1]⟩ ⟨"b", [1, 2]⟩ = none ∧
    (WeightedScorer.equal_weights 3).calculate_score ⟨"a", [1, 2]⟩ ⟨"b", [3, 4]⟩ = none := by
  have h := C8_length_mismatch_panics
  have h1 := h.1 ⟨"a", [1]⟩ ⟨"b", [1, 2]⟩ (by decide)
  exact ⟨h1.1, h1.2.1, h1.2.2.1 _, h1.2.2.2 _,
    h.2 (WeightedScorer.equal_weights 3) ⟨"a", [1, 2]⟩ ⟨"b", [3, 4]⟩ (by decide)⟩

/-- C9: `equal_weights n` always succeeds, producing `n` copies of weight `1`;
in particular `equal_weights 0` has an empty weight vector, which
`WeightedScorer::new` would reject with an error. -/
theorem C9_equal_weights_bypasses_validation (n : ℕ) :
    (WeightedScorer.equal_weights n).weights.length = n ∧
    (∀ w ∈ (WeightedScorer.equal_weights n).weights, w = 1) ∧
    (WeightedScorer.equal_weights 0).weights = [] ∧
    WeightedScorer.new (WeightedScorer.equal_weights 0).weights
      = Except.error "Weights vector cannot be empty" := by
  refine ⟨by simp [WeightedScorer.equal_weights], ?_, by rfl, by rfl⟩
  intro w hw
  exact (List.eq_of_mem_replicate hw)

/-! ### Helper lemmas for the greedy matcher -/

namespace GreedyMatcher

theorem greedy_select_go_nil (users : List User) (matched : List String) :
    greedy_select_go users [] matched = [] := rfl

theorem greedy_select_go_commit (users : List User) (i j : ℕ) (sc : ℚ)
    (rest : List (ℕ × ℕ × ℚ)) (matched : List String)
    (h : (userAt users i).id ∉ matched ∧ (userAt users j).id ∉ matched) :
    greedy_select_go users ((i, j, sc) :: rest) matched
      = Match.new (userAt users i).id (userAt users j).id sc ::
        greedy_select_go users rest
          ((userAt users j).id :: (userAt users i).id :: matched) := by
  simp only [greedy_select_go]
  rw [if_pos h]

theorem greedy_select_go_skip (users : List User) (i j : ℕ) (sc : ℚ)
    (rest : List (ℕ × ℕ × ℚ)) (matched : List String)
    (h : ¬((userAt users i).id ∉ matched ∧ (userAt users j).id ∉ matched)) :
    greedy_select_go users ((i, j, sc) :: rest) matched
      = greedy_select_go users rest matched := by
  simp only [greedy_select_go]
  rw [if_neg h]

@[simp]
theorem Match.new_user1_id (a b : String) (s : ℚ) : (Match.new a b s).user1_id = a := rfl

@[simp]
theorem Match.new_user2_id (a b : String) (s : ℚ) : (Match.new a b s).user2_id = b := rfl

@[simp]
theorem Match.new_score (a b : String) (s : ℚ) : (Match.new a b s).score = s := rfl

theorem matchIds_cons (m : Match) (ms : List Match) :
    matchIds (m :: ms) = m.user1_id :: m.user2_id :: matchIds ms := rfl

theorem length_matchIds (ms : List Match) :
    (matchIds ms).length = 2 * ms.length := by
  induction ms with
  | nil => rfl
  | cons m t ih => simp [matchIds, List.flatMap_cons] at ih ⊢; omega

theorem mem_matchIds {s : String} {ms : List Match} :
    s ∈ matchIds ms ↔ ∃ m ∈ ms, memMatch s m := by
  simp [matchIds, memMatch, List.mem_flatMap]

/-- Every identity named by the output of the greedy loop was unmatched when
the loop started. -/
theorem go_ids_not_matched (users : List User) :
    ∀ (pairs : List (ℕ × ℕ × ℚ)) (matched : List String) (s : String),
      s ∈ matchIds (greedy_select_go users pairs matched) → s ∉ matched
  | [], matched, s, hs => by simp [greedy_select_go_nil, matchIds] at hs
  | (i, j, sc) :: rest, matched, s, hs => by
    by_cases h : (userAt users i).id ∉ matched ∧ (userAt users j).id ∉ matched
    · rw [greedy_select_go_commit users i j sc rest matched h] at hs
      rw [matchIds, List.flatMap_cons] at hs
      rcases List.mem_append.mp hs with hs1 | hs2
      · simp only [Match.new, List.mem_cons, List.not_mem_nil, or_false] at hs1
        rcases hs1 with rfl | rfl
        · exact h.1
        · exact h.2
      · have hrec := go_ids_not_matched users rest
          ((userAt users j).id :: (userAt users i).id :: matched) s hs2
        intro hm
        exact hrec (by simp [hm])
    · rw [greedy_select_go_skip users i j sc rest matched h] at hs
      exact go_ids_not_matched users rest matched s hs

/-- The matches produced by the greedy loop are pairwise identity-disjoint. -/
theorem go_pairwise (users : List User) :
    ∀ (pairs : List (ℕ × ℕ × ℚ)) (matched : List String),
      (greedy_select_go users pairs matched).Pairwise
        (fun m1 m2 => ∀ s, memMatch s m1 → ¬ memMatch s m2)
  | [], matched => by simp [greedy_select_go_nil]
  | (i, j, sc) :: rest, matched => by
    by_cases h : (userAt users i).id ∉ matched ∧ (userAt users j).id ∉ matched
    · rw [greedy_select_go_commit users i j sc rest matched h]
      refine List.pairwise_cons.mpr ⟨?_, go_pairwise users rest _⟩
      intro m2 hm2 s hs1 hs2
      have hnot := go_ids_not_matched users rest
        ((userAt users j).id :: (userAt users i).id :: matched) s
        (mem_matchIds.mpr ⟨m2, hm2, hs2⟩)
      rcases hs1 with rfl | rfl
      · exact hnot (by simp [Match.new])
      · exact hnot (by simp [Match.new])
    · rw [greedy_select_go_skip users i j sc rest matched h]
      exact go_pairwise users rest matched

/-- Identities in the greedy output all come from the endpoints of the
candidate pairs. -/
theorem go_ids_sub (users : List User) (L : List String) :
    ∀ (pairs : List (ℕ × ℕ × ℚ)) (matched : List String),
      (hp : ∀ p ∈ pairs, (userAt users p.1).id ∈ L ∧ (userAt users p.2.1).id ∈ L) →
      ∀ s ∈ matchIds (greedy_select_go users pairs matched), s ∈ L
  | [], matched, hp, s, hs => by simp [greedy_select_go_nil, matchIds] at hs
  | (i, j, sc) :: rest, matched, hp, s, hs => by
    have hrest := fun p hp' => hp p (List.mem_cons_of_mem _ hp')
    by_cases h : (userAt users i).id ∉ matched ∧ (userAt users j).id ∉ matched
    · rw [greedy_select_go_commit users i j sc rest matched h] at hs
      rw [matchIds, List.flatMap_cons] at hs
      rcases List.mem_append.mp hs with hs1 | hs2
      · have hhead := hp (i, j, sc) (List.mem_cons_self _ _)
        simp only [Match.new, List.mem_cons, List.not_mem_nil, or_false] at hs1
        rcases hs1 with rfl | rfl
        · exact hhead.1
        · exact hhead.2
      · exact go_ids_sub users L rest _ hrest s hs2
    · rw [greedy_select_go_skip users i j sc rest matched h] at hs
      exact go_ids_sub users L rest matched hrest s hs

/-- When no candidate pair relates a user id to itself, the greedy output
names each identity at most once. -/
theorem go_ids_nodup (users : List User) :
    ∀ (pairs : List (ℕ × ℕ × ℚ)) (matched : List String),
      (hp : ∀ p ∈ pairs, (userAt users p.1).id ≠ (userAt users p.2.1).id) →
      (matchIds (greedy_select_go users pairs matched)).Nodup
  | [], matched, hp => by simp [greedy_select_go_nil, matchIds]
  | (i, j, sc) :: rest, matched, hp => by
    have hrest := fun p hp' => hp p (List.mem_cons_of_mem _ hp')
    by_cases h : (userAt users i).id ∉ matched ∧ (userAt users j).id ∉ matched
    · rw [greedy_select_go_commit users i j sc rest matched h, matchIds_cons,
        Match.new_user1_id, Match.new_user2_id]
      have hne := hp (i, j, sc) (List.mem_cons_self _ _)
      have hni : (userAt users i).id ∉
          matchIds (greedy_select_go users rest
            ((userAt users j).id :: (userAt users i).id :: matched)) :=
        fun hmem => go_ids_not_matched users rest _ _ hmem (by simp)
      have hnj : (userAt users j).id ∉
          matchIds (greedy_select_go users rest
            ((userAt users j).id :: (userAt users i).id :: matched)) :=
        fun hmem => go_ids_not_matched users rest _ _ hmem (by simp)
      refine List.nodup_cons.mpr ⟨?_, List.nodup_cons.mpr
        ⟨hnj, go_ids_nodup users rest _ hrest⟩⟩
      intro hmem
      rcases List.mem_cons.mp hmem with heq | hmem2
      · exact hne heq
      · exact hni hmem2
    · rw [greedy_select_go_skip users i j sc rest matched h]
      exact go_ids_nodup users rest matched hrest

/-- For every candidate pair in the list, at least one endpoint identity ends
up matched (either it already was, or the pair itself commits). -/
theorem go_covers (users : List User) :
    ∀ (pairs : List (ℕ × ℕ × ℚ)) (matched : List String) (i j : ℕ) (sc : ℚ),
      (i, j, sc) ∈ pairs →
      ((userAt users i).id ∈ matchIds (greedy_select_go users pairs matched) ∨
        (userAt users i).id ∈ matched) ∨
      ((userAt users j).id ∈ matchIds (greedy_select_go users pairs matched) ∨
        (userAt users j).id ∈ matched)
  | [], matched, i, j, sc, hmem => by simp at hmem
  | (i', j', sc') :: rest, matched, i, j, sc, hmem => by
    by_cases h : (userAt users i').id ∉ matched ∧ (userAt users j').id ∉ matched
    · rw [greedy_select_go_commit users i' j' sc' rest matched h, matchIds_cons,
        Match.new_user1_id, Match.new_user2_id]
      rcases List.mem_cons.mp hmem with heq | htail
      · have hii : i = i' := congrArg Prod.fst heq
        left; left
        rw [hii]
        exact List.mem_cons_self _ _
      · have ih := go_covers users rest
          ((userAt users j').id :: (userAt users i').id :: matched) i j sc htail
        rcases ih with (hm | hm) | (hm | hm)
        · exact Or.inl (Or.inl (List.mem_cons_of_mem _ (List.mem_cons_of_mem _ hm)))
        · rcases List.mem_cons.mp hm with h1 | h1
          · exact Or.inl (Or.inl (by
              rw [h1]; exact List.mem_cons_of_mem _ (List.mem_cons_self _ _)))
          · rcases List.mem_cons.mp h1 with h2 | h2
            · exact Or.inl (Or.inl (by rw [h2]; exact List.mem_cons_self _ _))
            · exact Or.inl (Or.inr h2)
        · exact Or.inr (Or.inl (List.mem_cons_of_mem _ (List.mem_cons_of_mem _ hm)))
        · rcases List.mem_cons.mp hm with h1 | h1
          · exact Or.inr (Or.inl (by
              rw [h1]; exact List.mem_cons_of_mem _ (List.mem_cons_self _ _)))
          · rcases List.mem_cons.mp h1 with h2 | h2
            · exact Or.inr (Or.inl (by rw [h2]; exact List.mem_cons_self _ _))
            · exact Or.inr (Or.inr h2)
    · rw [greedy_select_go_skip users i' j' sc' rest matched h]
      rcases List.mem_cons.mp hmem with heq | htail
      · have hii : i = i' := congrArg Prod.fst heq
        have hjj : j = j' := congrArg (Prod.fst ∘ Prod.snd) heq
        rw [not_and_or, not_not, not_not] at h
        rcases h with h | h
        · exact Or.inl (Or.inr (hii ▸ h))
        · exact Or.inr (Or.inr (hjj ▸ h))
      · exact go_covers users rest matched i j sc htail

end GreedyMatcher

namespace GreedyMatcher

theorem userAt_eq_getElem (users : List User) {i : ℕ} (h : i < users.length) :
    userAt users i = users[i] := by
  simp [userAt, List.get?_eq_getElem?, List.getElem?_eq_getElem h]

theorem userAt_mem (users : List User) {i : ℕ} (h : i < users.length) :
    userAt users i ∈ users := by
  rw [userAt_eq_getElem users h]
  exact List.getElem_mem h

theorem userAt_id_mem_map (users : List User) {i : ℕ} (h : i < users.length) :
    (userAt users i).id ∈ users.map User.id :=
  List.mem_map_of_mem User.id (userAt_mem users h)

theorem userAt_id_ne (users : List User) (hid : (users.map User.id).Nodup)
    {i j : ℕ} (hij : i < j) (hj : j < users.length) :
    (userAt users i).id ≠ (userAt users j).id := by
  have hi : i < users.length := lt_trans hij hj
  have hi' : i < (users.map User.id).length := by simpa using hi
  have hj' : j < (users.map User.id).length := by simpa using hj
  intro he
  have h1 : (users.map User.id)[i] = (users.map User.id)[j] := by
    rw [List.getElem_map, List.getElem_map]
    rw [← userAt_eq_getElem users hi, ← userAt_eq_getElem users hj]
    exact he
  have := (List.Nodup.getElem_inj_iff hid).mp h1
  omega

theorem mem_calculate_all_pairs (scorer : User → User → ℚ) (users : List User)
    (i j : ℕ) (sc : ℚ) :
    (i, j, sc) ∈ calculate_all_pairs scorer users ↔
      i < j ∧ j < users.length ∧ sc = scorer (userAt users i) (userAt users j) := by
  simp only [calculate_all_pairs, List.mem_flatMap, List.mem_map, List.mem_filter,
    List.mem_range, Prod.mk.injEq, decide_eq_true_eq]
  constructor
  · rintro ⟨a, ha, b, ⟨hb, hab⟩, rfl, rfl, rfl⟩
    exact ⟨hab, hb, rfl⟩
  · rintro ⟨hij, hj, rfl⟩
    exact ⟨i, lt_trans hij hj, j, ⟨hj, hij⟩, rfl, rfl, rfl⟩

theorem find_matches_eq (scorer : User → User → ℚ) (users : List User)
    (h : 2 ≤ users.length) :
    find_matches scorer users
      = greedy_select users ((calculate_all_pairs scorer users).mergeSort pairLe) := by
  rw [find_matches, if_neg (by omega)]

/-- The sorted candidate list has the same members as the raw candidate list. -/
theorem mem_sorted_pairs (scorer : User → User → ℚ) (users : List User)
    (p : ℕ × ℕ × ℚ) :
    p ∈ (calculate_all_pairs scorer users).mergeSort pairLe ↔
      p ∈ calculate_all_pairs scorer users :=
  (List.mergeSort_perm (calculate_all_pairs scorer users) pairLe).mem_iff

/-- The sorted candidate list is descending by score. -/
theorem sorted_pairs_pairwise (scorer : User → User → ℚ) (users : List User) :
    ((calculate_all_pairs scorer users).mergeSort pairLe).Pairwise
      (fun a b => pairLe a b) :=
  List.sorted_mergeSort
    (fun a b c h1 h2 => by
      simp only [pairLe, decide_eq_true_eq] at *
      exact le_trans h2 h1)
    (fun a b => by
      simp only [pairLe, Bool.or_eq_true, decide_eq_true_eq]
      exact le_total b.2.2 a.2.2)
    (calculate_all_pairs scorer users)

end GreedyMatcher

/-! ### Claims C10, C2, C1 (greedy matcher) -/

/-- C10: for every user slice and every in-bounds candidate list,
`greedy_select` never lets a user identity occur in two different returned
matches: once committed, an identity is skipped in all later candidates. -/
theorem C10_greedy_select_disjoint (users : List User)
    (pairs : List (ℕ × ℕ × ℚ))
    (hbounds : ∀ p ∈ pairs, p.1 < users.length ∧ p.2.1 < users.length) :
    (GreedyMatcher.greedy_select users pairs).Pairwise
      (fun m1 m2 => ∀ s, GreedyMatcher.memMatch s m1 → ¬ GreedyMatcher.memMatch s m2) :=
  GreedyMatcher.go_pairwise users pairs []

/-- Witness for C10 on a concrete slice and candidate list. -/
theorem C10_greedy_select_disjoint_witness :
    (GreedyMatcher.greedy_select
        [⟨"a", [1]⟩, ⟨"b", [7]⟩, ⟨"c", [4]⟩]
        [(0, 1, 6), (0, 2, 3), (1, 2, 3)]).Pairwise
      (fun m1 m2 => ∀ s, GreedyMatcher.memMatch s m1 → ¬ GreedyMatcher.memMatch s m2) :=
  C10_greedy_select_disjoint [⟨"a", [1]⟩, ⟨"b", [7]⟩, ⟨"c", [4]⟩]
    [(0, 1, 6), (0, 2, 3), (1, 2, 3)] (by decide)

/-- C2: on at least 2 participants with equal-length valid response vectors,
the first pairing committed by `find_matches` scores at least as high as every
candidate pair, and its score is one of the candidate scores. -/
theorem C2_first_match_max (scorer : User → User → ℚ) (users : List User)
    (h2 : 2 ≤ users.length)
    (hval : ∀ u ∈ users, ∀ r ∈ u.responses, 1 ≤ r ∧ r ≤ 7)
    (hlen : ∀ u ∈ users, ∀ v ∈ users, u.responses.length = v.responses.length) :
    ∃ (m : Match) (rest : List Match),
      GreedyMatcher.find_matches scorer users = m :: rest ∧
      m.score ∈ (GreedyMatcher.calculate_all_pairs scorer users).map (fun p => p.2.2) ∧
      ∀ p ∈ GreedyMatcher.calculate_all_pairs scorer users, p.2.2 ≤ m.score := by
  have hmem0 : (0, 1, scorer (GreedyMatcher.userAt users 0) (GreedyMatcher.userAt users 1))
      ∈ GreedyMatcher.calculate_all_pairs scorer users :=
    (GreedyMatcher.mem_calculate_all_pairs scorer users 0 1 _).mpr
      ⟨by omega, by omega, rfl⟩
  have hne : (GreedyMatcher.calculate_all_pairs scorer users).mergeSort
      GreedyMatcher.pairLe ≠ [] := by
    intro hnil
    have hm := (GreedyMatcher.mem_sorted_pairs scorer users _).mpr hmem0
    rw [hnil] at hm
    simp at hm
  obtain ⟨hd, tl, hcons⟩ := List.exists_cons_of_ne_nil hne
  obtain ⟨i, j, sc⟩ := hd
  refine ⟨Match.new (GreedyMatcher.userAt users i).id (GreedyMatcher.userAt users j).id sc,
    GreedyMatcher.greedy_select_go users tl
      ((GreedyMatcher.userAt users j).id :: (GreedyMatcher.userAt users i).id :: []), ?_, ?_, ?_⟩
  · rw [GreedyMatcher.find_matches_eq scorer users h2, hcons,
      GreedyMatcher.greedy_select,
      GreedyMatcher.greedy_select_go_commit users i j sc tl [] (by simp)]
  · have hm : (i, j, sc) ∈ GreedyMatcher.calculate_all_pairs scorer users := by
      rw [← GreedyMatcher.mem_sorted_pairs scorer users, hcons]
      exact List.mem_cons_self _ _
    simpa using List.mem_map_of_mem (fun p => p.2.2) hm
  · intro p hp
    have hp' := (GreedyMatcher.mem_sorted_pairs scorer users p).mpr hp
    rw [hcons] at hp'
    rcases List.mem_cons.mp hp' with rfl | htl
    · simp
    · have hpw := GreedyMatcher.sorted_pairs_pairwise scorer users
      rw [hcons] at hpw
      have hle := (List.pairwise_cons.mp hpw).1 p htl
      simpa [GreedyMatcher.pairLe] using hle

/-- Witness for C2 on 4 concrete participants. -/
theorem C2_first_match_max_witness :
    ∃ (m : Match) (rest : List Match),
      GreedyMatcher.find_matches
          (fun u v => (SimpleDifferenceScorer.calculate_score u v).getD 0)
          [⟨"a", [1, 1]⟩, ⟨"b", [7, 7]⟩, ⟨"c", [4, 4]⟩, ⟨"d", [1, 7]⟩] = m :: rest ∧
      m.score ∈ (GreedyMatcher.calculate_all_pairs
          (fun u v => (SimpleDifferenceScorer.calculate_score u v).getD 0)
          [⟨"a", [1, 1]⟩, ⟨"b", [7, 7]⟩, ⟨"c", [4, 4]⟩, ⟨"d", [1, 7]⟩]).map
        (fun p => p.2.2) ∧
      ∀ p ∈ GreedyMatcher.calculate_all_pairs
          (fun u v => (SimpleDifferenceScorer.calculate_score u v).getD 0)
          [⟨"a", [1, 1]⟩, ⟨"b", [7, 7]⟩, ⟨"c", [4, 4]⟩, ⟨"d", [1, 7]⟩],
        p.2.2 ≤ m.score :=
  C2_first_match_max
    (fun u v => (SimpleDifferenceScorer.calculate_score u v).getD 0)
    [⟨"a", [1, 1]⟩, ⟨"b", [7, 7]⟩, ⟨"c", [4, 4]⟩, ⟨"d", [1, 7]⟩]
    (by decide) (by decide) (by decide)

namespace GreedyMatcher

theorem sorted_pairs_bounds (scorer : User → User → ℚ) (users : List User) :
    ∀ p ∈ (calculate_all_pairs scorer users).mergeSort pairLe,
      p.1 < p.2.1 ∧ p.2.1 < users.length := by
  intro p hp
  obtain ⟨i, j, sc⟩ := p
  have hm := (mem_calculate_all_pairs scorer users i j sc).mp
    ((mem_sorted_pairs scorer users _).mp hp)
  exact ⟨hm.1, hm.2.1⟩

theorem find_matches_ids_nodup (scorer : User → User → ℚ) (users : List User)
    (h2 : 2 ≤ users.length) (hid : (users.map User.id).Nodup) :
    (matchIds (find_matches scorer users)).Nodup := by
  rw [find_matches_eq scorer users h2]
  exact go_ids_nodup users _ [] (fun p hp =>
    userAt_id_ne users hid (sorted_pairs_bounds scorer users p hp).1
      (sorted_pairs_bounds scorer users p hp).2)

theorem find_matches_ids_sub (scorer : User → User → ℚ) (users : List User)
    (h2 : 2 ≤ users.length) :
    ∀ s ∈ matchIds (find_matches scorer users), s ∈ users.map User.id := by
  rw [find_matches_eq scorer users h2]
  exact go_ids_sub users (users.map User.id) _ []
    (fun p hp =>
      ⟨userAt_id_mem_map users
        (lt_trans (sorted_pairs_bounds scorer users p hp).1
          (sorted_pairs_bounds scorer users p hp).2),
       userAt_id_mem_map users (sorted_pairs_bounds scorer users p hp).2⟩)

theorem find_matches_length_bound (scorer : User → User → ℚ) (users : List User)
    (h2 : 2 ≤ users.length) (hid : (users.map User.id).Nodup) :
    2 * (find_matches scorer users).length ≤ users.length := by
  have hnodup := find_matches_ids_nodup scorer users h2 hid
  have hsub := find_matches_ids_sub scorer users h2
  have hlen2 := length_matchIds (find_matches scorer users)
  have hc1 : (matchIds (find_matches scorer users)).toFinset.card
      = (matchIds (find_matches scorer users)).length :=
    List.toFinset_card_of_nodup hnodup
  have hc2 : (matchIds (find_matches scorer users)).toFinset.card
      ≤ (users.map User.id).toFinset.card :=
    Finset.card_le_card
      (fun x hx => List.mem_toFinset.mpr (hsub x (List.mem_toFinset.mp hx)))
  have hc3 : (users.map User.id).toFinset.card ≤ (users.map User.id).length :=
    List.toFinset_card_le _
  have hc4 : (users.map User.id).length = users.length := List.length_map _ _
  omega

theorem find_matches_covers (scorer : User → User → ℚ) (users : List User)
    (h2 : 2 ≤ users.length) {i j : ℕ} (hij : i < j) (hj : j < users.length) :
    (userAt users i).id ∈ matchIds (find_matches scorer users) ∨
    (userAt users j).id ∈ matchIds (find_matches scorer users) := by
  rw [find_matches_eq scorer users h2]
  have hmem : (i, j, scorer (userAt users i) (userAt users j))
      ∈ (calculate_all_pairs scorer users).mergeSort pairLe :=
    (mem_sorted_pairs scorer users _).mpr
      ((mem_calculate_all_pairs scorer users i j _).mpr ⟨hij, hj, rfl⟩)
  have hcov := go_covers users
    ((calculate_all_pairs scorer users).mergeSort pairLe) [] i j _ hmem
  simp only [greedy_select]
  simpa using hcov

/-- With 4 distinct-identity participants, the greedy matcher commits exactly
2 pairings and the committed identities are exactly the 4 participant
identities. -/
theorem find_matches_four_users (scorer : User → User → ℚ) (users : List User)
    (hid : (users.map User.id).Nodup) (h4 : users.length = 4) :
    (find_matches scorer users).length = 2 ∧
      List.Perm (matchIds (find_matches scorer users)) (users.map User.id) := by
  have h2 : 2 ≤ users.length := by omega
  have hbound := find_matches_length_bound scorer users h2 hid
  have hnodup := find_matches_ids_nodup scorer users h2 hid
  have hsub := find_matches_ids_sub scorer users h2
  have hlen2 := length_matchIds (find_matches scorer users)
  have hge : 2 ≤ (find_matches scorer users).length := by
    by_contra hlt
    push_neg at hlt
    have hmidlen : (matchIds (find_matches scorer users)).length ≤ 2 := by omega
    have h3 : ∀ x y z : String, x ≠ y → x ≠ z → y ≠ z →
        x ∈ matchIds (find_matches scorer users) →
        y ∈ matchIds (find_matches scorer users) →
        z ∈ matchIds (find_matches scorer users) → False := by
      intro x y z hxy hxz hyz hx hy hz
      have hsubT : ({x, y, z} : Finset String)
          ⊆ (matchIds (find_matches scorer users)).toFinset := by
        intro w hw
        simp only [Finset.mem_insert, Finset.mem_singleton] at hw
        rcases hw with rfl | rfl | rfl
        · exact List.mem_toFinset.mpr hx
        · exact List.mem_toFinset.mpr hy
        · exact List.mem_toFinset.mpr hz
      have hcard3 : ({x, y, z} : Finset String).card = 3 := by
        rw [Finset.card_insert_of_not_mem (by simp [hxy, hxz]),
          Finset.card_insert_of_not_mem (by simp [hyz]), Finset.card_singleton]
      have hcle := Finset.card_le_card hsubT
      rw [hcard3] at hcle
      have htfl : (matchIds (find_matches scorer users)).toFinset.card
          ≤ (matchIds (find_matches scorer users)).length :=
        List.toFinset_card_le _
      omega
    have hc01 := find_matches_covers scorer users h2 (by omega : (0:ℕ) < 1) (by omega)
    have hc02 := find_matches_covers scorer users h2 (by omega : (0:ℕ) < 2) (by omega)
    have hc03 := find_matches_covers scorer users h2 (by omega : (0:ℕ) < 3) (by omega)
    have hc12 := find_matches_covers scorer users h2 (by omega : (1:ℕ) < 2) (by omega)
    have hc13 := find_matches_covers scorer users h2 (by omega : (1:ℕ) < 3) (by omega)
    have hc23 := find_matches_covers scorer users h2 (by omega : (2:ℕ) < 3) (by omega)
    have d01 := userAt_id_ne users hid (by omega : (0:ℕ) < 1) (by omega)
    have d02 := userAt_id_ne users hid (by omega : (0:ℕ) < 2) (by omega)
    have d03 := userAt_id_ne users hid (by omega : (0:ℕ) < 3) (by omega)
    have d12 := userAt_id_ne users hid (by omega : (1:ℕ) < 2) (by omega)
    have d13 := userAt_id_ne users hid (by omega : (1:ℕ) < 3) (by omega)
    have d23 := userAt_id_ne users hid (by omega : (2:ℕ) < 3) (by omega)
    rcases hc01 with h01 | h01 <;> rcases hc02 with h02 | h02 <;>
      rcases hc03 with h03 | h03 <;> rcases hc12 with h12 | h12 <;>
      rcases hc13 with h13 | h13 <;> rcases hc23 with h23 | h23 <;>
      first
      | exact h3 _ _ _ d01 d02 d12 (by assumption) (by assumption) (by assumption)
      | exact h3 _ _ _ d01 d03 d13 (by assumption) (by assumption) (by assumption)
      | exact h3 _ _ _ d02 d03 d23 (by assumption) (by assumption) (by assumption)
      | exact h3 _ _ _ d12 d13 d23 (by assumption) (by assumption) (by assumption)
  have hlen_eq : (find_matches scorer users).length = 2 := by omega
  refine ⟨hlen_eq, ?_⟩
  have hids_len : (users.map User.id).length = 4 := by
    rw [List.length_map, h4]
  have htf : (matchIds (find_matches scorer users)).toFinset
      = (users.map User.id).toFinset := by
    apply Finset.eq_of_subset_of_card_le
    · intro x hx
      exact List.mem_toFinset.mpr (hsub x (List.mem_toFinset.mp hx))
    · rw [List.toFinset_card_of_nodup hid, List.toFinset_card_of_nodup hnodup]
      omega
  exact List.perm_of_nodup_nodup_toFinset_eq hnodup hid htf

end GreedyMatcher

/-- C1: for participants with valid equal-length responses and distinct
identities, `find_matches` returns at most `⌊N/2⌋` pairings in which no
identity appears in more than one pairing; on 4 participants it returns
exactly 2 disjoint pairings covering all 4 identities exactly once. -/
theorem C1_find_matches_disjoint_pairings (scorer : User → User → ℚ)
    (users : List User) (h2 : 2 ≤ users.length)
    (hval : ∀ u ∈ users, ∀ r ∈ u.responses, 1 ≤ r ∧ r ≤ 7)
    (hlen : ∀ u ∈ users, ∀ v ∈ users, u.responses.length = v.responses.length)
    (hid : (users.map User.id).Nodup) :
    (GreedyMatcher.find_matches scorer users).length ≤ users.length / 2 ∧
    (GreedyMatcher.find_matches scorer users).Pairwise
      (fun m1 m2 => ∀ s, GreedyMatcher.memMatch s m1 → ¬ GreedyMatcher.memMatch s m2) ∧
    (users.length = 4 →
      (GreedyMatcher.find_matches scorer users).length = 2 ∧
      List.Perm (GreedyMatcher.matchIds (GreedyMatcher.find_matches scorer users))
        (users.map User.id)) := by
  refine ⟨?_, ?_, ?_⟩
  · have hb := GreedyMatcher.find_matches_length_bound scorer users h2 hid
    omega
  · rw [GreedyMatcher.find_matches_eq scorer users h2]
    exact GreedyMatcher.go_pairwise users _ []
  · intro h4
    exact GreedyMatcher.find_matches_four_users scorer users hid h4

/-- Witness for C1 on 4 concrete participants. -/
theorem C1_find_matches_disjoint_pairings_witness :
    (GreedyMatcher.find_matches
        (fun u v => (SimpleDifferenceScorer.calculate_score u v).getD 0)
        [⟨"a", [1, 1]⟩, ⟨"b", [7, 7]⟩, ⟨"c", [4, 4]⟩, ⟨"d", [1, 7]⟩]).length
      ≤ [⟨"a", [1, 1]⟩, ⟨"b", [7, 7]⟩, ⟨"c", [4, 4]⟩, (⟨"d", [1, 7]⟩ : User)].length / 2 ∧
    (GreedyMatcher.find_matches
        (fun u v => (SimpleDifferenceScorer.calculate_score u v).getD 0)
        [⟨"a", [1, 1]⟩, ⟨"b", [7, 7]⟩, ⟨"c", [4, 4]⟩, ⟨"d", [1, 7]⟩]).Pairwise
      (fun m1 m2 => ∀ s, GreedyMatcher.memMatch s m1 → ¬ GreedyMatcher.memMatch s m2) ∧
    ([⟨"a", [1, 1]⟩, ⟨"b", [7, 7]⟩, ⟨"c", [4, 4]⟩, (⟨"d", [1, 7]⟩ : User)].length = 4 →
      (GreedyMatcher.find_matches
          (fun u v => (SimpleDifferenceScorer.calculate_score u v).getD 0)
          [⟨"a", [1, 1]⟩, ⟨"b", [7, 7]⟩, ⟨"c", [4, 4]⟩, ⟨"d", [1, 7]⟩]).length = 2 ∧
      List.Perm
        (GreedyMatcher.matchIds (GreedyMatcher.find_matches
          (fun u v => (SimpleDifferenceScorer.calculate_score u v).getD 0)
          [⟨"a", [1, 1]⟩, ⟨"b", [7, 7]⟩, ⟨"c", [4, 4]⟩, ⟨"d", [1, 7]⟩]))
        ([⟨"a", [1, 1]⟩, ⟨"b", [7, 7]⟩, ⟨"c", [4, 4]⟩, (⟨"d", [1, 7]⟩ : User)].map User.id)) :=
  C1_find_matches_disjoint_pairings
    (fun u v => (SimpleDifferenceScorer.calculate_score u v).getD 0)
    [⟨"a", [1, 1]⟩, ⟨"b", [7, 7]⟩, ⟨"c", [4, 4]⟩, ⟨"d", [1, 7]⟩]
    (by decide) (by decide) (by decide) (by decide)

/-- Witness for C9 at concrete sizes. -/
theorem C9_equal_weights_bypasses_validation_witness :
    (WeightedScorer.equal_weights 3).weights.length = 3 ∧
    WeightedScorer.new (WeightedScorer.equal_weights 0).weights
      = Except.error "Weights vector cannot be empty" :=
  ⟨(C9_equal_weights_bypasses_validation 3).1,
   (C9_equal_weights_bypasses_validation 3).2.2.2⟩
